import Mathlib

/-!
Shallow embedding of the document-to-text extraction core of the
MyStudyBuddy repository (src/processors.py and src/processorsvision.py),
together with theorems settling the frozen claims about it.

Python strings are modelled as `List Char` (ASCII fragment); per-page OCR
and remote recognition calls are modelled by their results (`Except err ok`
for calls that can raise, plain values for calls that return strings).
-/

namespace MyStudyBuddy

/-- ASCII whitespace: the characters Python's regex class \s and str.strip()
treat as whitespace on ASCII text. -/
def isWS (c : Char) : Bool :=
  c = ' ' || c = '\t' || c = '\n' || c = '\r' || c = '\x0b' || c = '\x0c'

/-- ASCII decimal digit, Python's regex class \d on ASCII text. -/
def isDigitC (c : Char) : Bool :=
  '0' ≤ c && c ≤ '9'

/-- Python str.strip(): drop whitespace from both ends. -/
def pstrip (l : List Char) : List Char :=
  ((l.dropWhile isWS).reverse.dropWhile isWS).reverse

/-- Python sep.join(items): concatenate with a separator between items. -/
def joinSep (sep : List Char) : List (List Char) → List Char
  | [] => []
  | l :: ls =>
    match ls with
    | [] => l
    | _ :: _ => l ++ sep ++ joinSep sep ls

/-- Python text.split('\n'): the segments between newline characters
(one more segment than there are newlines; "" splits to [""]). -/
def splitNL : List Char → List (List Char)
  | [] => [[]]
  | c :: rest =>
    if c = '\n' then [] :: splitNL rest
    else
      match splitNL rest with
      | l :: ls => (c :: l) :: ls
      | [] => [[c]]

/-- First substitution of DocumentExtractor.remove_numbering
(src/processorsvision.py line 45): re.sub of the anchored pattern
\s* \d+ [.:)] \s* — when the line starts with optional whitespace, then
digits, then one of '.', ':', ')', then optional whitespace, drop that
match; otherwise the line is unchanged. -/
def sub1 (line : List Char) : List Char :=
  match line.dropWhile isWS with
  | [] => line
  | c :: _ =>
    if isDigitC c then
      match (line.dropWhile isWS).dropWhile isDigitC with
      | [] => line
      | p :: rest =>
        if p = '.' || p = ':' || p = ')' then rest.dropWhile isWS else line
    else line

/-- Second substitution of DocumentExtractor.remove_numbering
(src/processorsvision.py line 47): re.sub of the anchored pattern
\s* \d+ \s* : \s* applied to the first substitution's result. -/
def sub2 (line : List Char) : List Char :=
  match line.dropWhile isWS with
  | [] => line
  | c :: _ =>
    if isDigitC c then
      match ((line.dropWhile isWS).dropWhile isDigitC).dropWhile isWS with
      | [] => line
      | p :: rest =>
        if p = ':' then rest.dropWhile isWS else line
    else line

/-- Per-line body of remove_numbering's loop: the first substitution, then
the second applied to the first's result. -/
def cleanLine (line : List Char) : List Char :=
  sub2 (sub1 line)

/-- Whether the first substitution's pattern matches at the start of the
line (the line starts with ws* digits+ then '.', ':' or ')'). -/
def hasP1 (line : List Char) : Bool :=
  match line.dropWhile isWS with
  | [] => false
  | c :: _ =>
    isDigitC c &&
      match (line.dropWhile isWS).dropWhile isDigitC with
      | [] => false
      | p :: _ => p = '.' || p = ':' || p = ')'

/-- Whether the second substitution's pattern matches at the start of the
line (the line starts with ws* digits+ ws* ':'). -/
def hasP2 (line : List Char) : Bool :=
  match line.dropWhile isWS with
  | [] => false
  | c :: _ =>
    isDigitC c &&
      match ((line.dropWhile isWS).dropWhile isDigitC).dropWhile isWS with
      | [] => false
      | p :: _ => p = ':'

/-- DocumentExtractor.remove_numbering (src/processorsvision.py lines 34-50):
empty text is returned as is; otherwise the text is split on newlines, each
line is cleaned by the two substitutions in order, and the cleaned lines are
rejoined with newlines. -/
def remove_numbering (text : List Char) : List Char :=
  if text = [] then text
  else joinSep ['\n'] ((splitNL text).map cleanLine)

/-! ### Lemmas on the line machinery -/

theorem dropWhile_suffix (p : Char → Bool) (l : List Char) :
    l.dropWhile p <:+ l := by
  induction l with
  | nil => exact List.suffix_rfl
  | cons c cs ih =>
    by_cases h : p c
    · simpa [List.dropWhile, h] using ih.trans (List.suffix_cons c cs)
    · simp [List.dropWhile, h]

theorem sub1_suffix (line : List Char) : sub1 line <:+ line := by
  unfold sub1
  split
  · exact List.suffix_rfl
  · next c rest h1 =>
    have hws : c :: rest <:+ line := by
      rw [← h1]; exact dropWhile_suffix isWS line
    split
    · split
      · exact List.suffix_rfl
      · next p rest2 h2 =>
        split
        · have hd : p :: rest2 <:+ c :: rest := by
            rw [← h2, ← h1]
            exact dropWhile_suffix isDigitC (line.dropWhile isWS)
          exact (dropWhile_suffix isWS rest2).trans
            (((List.suffix_cons p rest2).trans hd).trans hws)
        · exact List.suffix_rfl
    · exact List.suffix_rfl

theorem sub2_suffix (line : List Char) : sub2 line <:+ line := by
  unfold sub2
  split
  · exact List.suffix_rfl
  · next c rest h1 =>
    have hws : c :: rest <:+ line := by
      rw [← h1]; exact dropWhile_suffix isWS line
    split
    · split
      · exact List.suffix_rfl
      · next p rest2 h2 =>
        split
        · have hd : p :: rest2 <:+ c :: rest := by
            rw [← h2, ← h1]
            exact (dropWhile_suffix isWS _).trans
              (dropWhile_suffix isDigitC (line.dropWhile isWS))
          exact (dropWhile_suffix isWS rest2).trans
            (((List.suffix_cons p rest2).trans hd).trans hws)
        · exact List.suffix_rfl
    · exact List.suffix_rfl

theorem cleanLine_suffix (line : List Char) : cleanLine line <:+ line :=
  (sub2_suffix (sub1 line)).trans (sub1_suffix line)

theorem splitNL_ne_nil (t : List Char) : splitNL t ≠ [] := by
  induction t with
  | nil => simp [splitNL]
  | cons c cs ih =>
    by_cases h : c = '\n'
    · simp [splitNL, h]
    · simp only [splitNL, h, if_false]
      cases hs : splitNL cs with
      | nil => exact absurd hs ih
      | cons l ls => simp

theorem mem_splitNL_no_newline (t : List Char) :
    ∀ l ∈ splitNL t, '\n' ∉ l := by
  induction t with
  | nil =>
    intro l hl
    simp only [splitNL, List.mem_singleton] at hl
    subst hl; simp
  | cons c cs ih =>
    intro l hl
    simp only [splitNL] at hl
    by_cases h : c = '\n'
    · rw [if_pos h] at hl
      rcases List.mem_cons.mp hl with h0 | h0
      · subst h0; simp
      · exact ih l h0
    · rw [if_neg h] at hl
      rcases hs : splitNL cs with _ | ⟨m, ms⟩
      · exact absurd hs (splitNL_ne_nil cs)
      · rw [hs] at hl
        rcases List.mem_cons.mp hl with h0 | h0
        · subst h0
          intro hmem
          rcases List.mem_cons.mp hmem with h1 | h1
          · exact h h1.symm
          · exact ih m (hs ▸ List.mem_cons_self m ms) h1
        · exact ih l (hs ▸ List.mem_cons_of_mem m h0)

theorem splitNL_append (l r : List Char) (hs : List Char)
    (ts : List (List Char)) (h : '\n' ∉ l) (heq : splitNL r = hs :: ts) :
    splitNL (l ++ r) = (l ++ hs) :: ts := by
  induction l with
  | nil => simpa using heq
  | cons c cs ih =>
    have hc : ¬c = '\n' := fun hc => h (hc ▸ List.mem_cons_self c cs)
    have h' : '\n' ∉ cs := fun hm => h (List.mem_cons_of_mem c hm)
    have hrec := ih h'
    simp only [List.cons_append, splitNL, if_neg hc, List.append_eq, hrec]

theorem splitNL_no_newline (l : List Char) (h : '\n' ∉ l) :
    splitNL l = [l] := by
  have := splitNL_append l [] [] [] h rfl
  simpa using this

theorem splitNL_joinSep (ls : List (List Char)) (hne : ls ≠ [])
    (h : ∀ l ∈ ls, '\n' ∉ l) :
    splitNL (joinSep ['\n'] ls) = ls := by
  induction ls with
  | nil => exact absurd rfl hne
  | cons l ls ih =>
    cases ls with
    | nil =>
      simp only [joinSep]
      exact splitNL_no_newline l (h l (List.mem_singleton.mpr rfl))
    | cons m ms =>
      have hl : '\n' ∉ l := h l (List.mem_cons_self l (m :: ms))
      have hrest : ∀ x ∈ m :: ms, '\n' ∉ x :=
        fun x hx => h x (List.mem_cons_of_mem l hx)
      have hr := ih (by simp) hrest
      have hjoin : joinSep ['\n'] (l :: m :: ms) =
          l ++ '\n' :: joinSep ['\n'] (m :: ms) := by
        simp [joinSep]
      rw [hjoin]
      have hsplit : splitNL ('\n' :: joinSep ['\n'] (m :: ms)) =
          [] :: splitNL (joinSep ['\n'] (m :: ms)) := by
        simp [splitNL]
      rw [splitNL_append l _ [] (splitNL (joinSep ['\n'] (m :: ms))) hl hsplit,
        hr, List.append_nil]

theorem cleanLine_no_newline (l : List Char) (h : '\n' ∉ l) :
    '\n' ∉ cleanLine l :=
  fun hm => h ((cleanLine_suffix l).sublist.subset hm)

theorem sub1_of_not_hasP1 (line : List Char) (h : hasP1 line = false) :
    sub1 line = line := by
  unfold sub1
  unfold hasP1 at h
  split
  · rfl
  · next c rest h1 =>
    rw [h1] at h
    split
    · next hdig =>
      split
      · rfl
      · next p rest2 h2 =>
        rw [h1] at h2
        rw [h2] at h
        simp only [hdig, Bool.true_and] at h
        rw [h]
        simp
    · rfl

theorem sub2_of_not_hasP2 (line : List Char) (h : hasP2 line = false) :
    sub2 line = line := by
  unfold sub2
  unfold hasP2 at h
  split
  · rfl
  · next c rest h1 =>
    rw [h1] at h
    split
    · next hdig =>
      split
      · rfl
      · next p rest2 h2 =>
        rw [h1] at h2
        rw [h2] at h
        simp only [hdig, Bool.true_and] at h
        rw [if_neg (of_decide_eq_false h)]
    · rfl

theorem remove_numbering_splitNL (t : List Char) :
    splitNL (remove_numbering t) = (splitNL t).map cleanLine := by
  by_cases ht : t = []
  · subst ht; decide
  · rw [remove_numbering, if_neg ht]
    apply splitNL_joinSep
    · intro hmap
      exact splitNL_ne_nil t (List.map_eq_nil_iff.mp hmap)
    · intro l hl
      rcases List.mem_map.mp hl with ⟨m, hm, rfl⟩
      exact cleanLine_no_newline m (mem_splitNL_no_newline t m hm)

/-! ### Recognition-path models -/

/-- DocumentProcessor.extract_text_from_image (src/processors.py lines
38-50): the OCR engine call is modelled by its outcome — ok with the
recognized text, which the function returns stripped, or error with the
raised message, which the function catches and returns as an inline error
string. No numbering normalization runs on this path. -/
def extract_text_from_image (ocr : Except (List Char) (List Char)) : List Char :=
  match ocr with
  | Except.ok t => pstrip t
  | Except.error e => "Error extracting text from image: ".toList ++ e

/-- DocumentExtractor.extract_with_vision (src/processorsvision.py lines
63-113): the remote recognition call is modelled by its response text; the
function returns remove_numbering applied to that response (line 110) and
nothing else. -/
def extract_with_vision (response : List Char) : List Char :=
  remove_numbering response

/-! ### Claim-side definition for C10 -/

/-- Follows the claim's words for C10: a "leading numbering prefix" is
optional whitespace, one or more digits, then '.', ':' or ')' (possibly a
spaced colon) and optional spaces. -/
def isNumMark (p : List Char) : Bool :=
  let a := p.dropWhile isWS
  let d := a.takeWhile isDigitC
  let r := a.dropWhile isDigitC
  (!d.isEmpty) &&
    ((match r with
      | c :: rest => (c = '.' || c = ':' || c = ')') && rest.all isWS
      | [] => false) ||
     (match r.dropWhile isWS with
      | c :: rest => c = ':' && rest.all isWS
      | [] => false))

/-- Follows the claim's words for C10: `output` is `input` with at most one
leading numbering prefix removed. -/
def atMostOneNumMarkRemoved (input output : List Char) : Bool :=
  (output == input) ||
    (decide (input.drop (input.length - output.length) = output) &&
      isNumMark (input.take (input.length - output.length)))

/-- C10 counterexample: the two substitutions of remove_numbering run in
sequence, so the line "1. 2: x" loses two leading numbering markers and
comes back as "x" — not the input with at most one marker removed. -/
theorem remove_numbering_strips_two_markers :
    remove_numbering ("1. 2: x".toList) = "x".toList ∧
    atMostOneNumMarkRemoved ("1. 2: x".toList) ("x".toList) = false := by
  decide

/-- C10 (amended): remove_numbering splits on newlines, maps every line
through cleanLine (the two substitutions in order) and rejoins, so the
number and positions of lines are preserved; a line on which neither
substitution's pattern matches is returned unchanged; every output line is
a suffix of its input line. Unlike the claim's wording, up to two leading
numbering markers can be removed from one line, not at most one. -/
theorem remove_numbering_line_structure :
    (∀ t : List Char, splitNL (remove_numbering t) = (splitNL t).map cleanLine) ∧
    (∀ t : List Char,
      (splitNL (remove_numbering t)).length = (splitNL t).length) ∧
    (∀ l : List Char, hasP1 l = false → hasP2 l = false → cleanLine l = l) ∧
    (∀ l : List Char, cleanLine l <:+ l) := by
  refine ⟨remove_numbering_splitNL, ?_, ?_, cleanLine_suffix⟩
  · intro t
    rw [remove_numbering_splitNL t, List.length_map]
  · intro l h1 h2
    unfold cleanLine
    rw [sub1_of_not_hasP1 l h1, sub2_of_not_hasP2 l h2]

/-- C7: numbering normalization is exactly the vision path's final step and
is a pure function of the recognized string: the vision extractor returns
remove_numbering of the recognition response and mutates nothing else,
so "1. Mitochondria produce ATP" comes back with the numbering stripped,
while the plain-OCR extractor applies no numbering removal and returns the
identical line unmodified. -/
theorem numbering_normalization_vision_only :
    (∀ s : List Char, extract_with_vision s = remove_numbering s) ∧
    extract_with_vision ("1. Mitochondria produce ATP".toList) =
      "Mitochondria produce ATP".toList ∧
    extract_text_from_image (Except.ok ("1. Mitochondria produce ATP".toList)) =
      "1. Mitochondria produce ATP".toList :=
  ⟨fun _ => rfl, by decide, by decide⟩

/-! ### PDF extraction models -/

/-- Python's enumerate, starting at `n`. -/
def enumFrom {α : Type} (n : Nat) : List α → List (Nat × α)
  | [] => []
  | a :: as => (n, a) :: enumFrom (n + 1) as

/-- The page banner and trailing newline of the entry
f"--- Page \x7bi+1\x7d ---\n\x7bpage_text\x7d\n" appended by
DocumentProcessor.extract_text_from_pdf (src/processors.py line 77). -/
def ocrPageTag (n : Nat) (t : List Char) : List Char :=
  "--- Page ".toList ++ (Nat.repr n).toList ++ " ---\n".toList ++ t ++ ['\n']

/-- The page banner of the entry f"--- Page \x7bpage_num + 1\x7d ---\n\x7btext\x7d"
appended by DocumentExtractor.extract_from_pdf (src/processorsvision.py
line 177). -/
def visionPageTag (n : Nat) (t : List Char) : List Char :=
  "--- Page ".toList ++ (Nat.repr n).toList ++ " ---\n".toList ++ t

/-- The page loop of DocumentProcessor.extract_text_from_pdf
(src/processors.py lines 64-77) with use_ocr=True (the default): each
rendered page goes through extract_text_from_image, whose OCR call is
modelled by the page's entry in the input list; a page whose stripped text
is empty is skipped, otherwise the tagged page text is appended. `n` is the
enumerate counter. -/
def ocrPdfEntries : Nat → List (Except (List Char) (List Char)) → List (List Char)
  | _, [] => []
  | n, pg :: rest =>
    let page_text := extract_text_from_image pg
    if pstrip page_text = [] then ocrPdfEntries (n + 1) rest
    else ocrPageTag (n + 1) page_text :: ocrPdfEntries (n + 1) rest

/-- DocumentProcessor.extract_text_from_pdf (src/processors.py lines 52-85)
with use_ocr=True. The pdf2image.convert_from_path call is modelled by its
outcome: error when rasterization raises — the enclosing try turns that
into an error string — or ok with the per-page OCR outcomes. The Bool
records whether os.unlink(tmp_path) ran on the temporary file the call
created: the unlink sits on the success path only (line 80), so the except
path returns with the file still on disk. -/
def extract_text_from_pdf
    (conv : Except (List Char) (List (Except (List Char) (List Char)))) :
    List Char × Bool :=
  match conv with
  | Except.error e => ("Error extracting text from PDF: ".toList ++ e, false)
  | Except.ok pages => (joinSep ['\n'] (ocrPdfEntries 0 pages), true)

/-- The page loop of DocumentExtractor.extract_from_pdf
(src/processorsvision.py lines 171-179): each page's extract_text() call is
modelled by its outcome. The try wraps the whole loop, so the first page
that raises appends one bare "Text extraction error: ..." entry and ends
the loop: pages already processed are kept, later pages are never visited.
`n` is the enumerate counter. -/
def visionPdfTextPages : Nat → List (Except (List Char) (List Char)) → List (List Char)
  | _, [] => []
  | n, Except.ok t :: rest =>
    visionPageTag (n + 1) t :: visionPdfTextPages (n + 1) rest
  | _, Except.error e :: _ => ["Text extraction error: ".toList ++ e]

/-- DocumentExtractor.extract_from_pdf (src/processorsvision.py lines
164-183): the content's text field, the page entries joined with blank
lines. -/
def extract_from_pdf (pages : List (Except (List Char) (List Char))) : List Char :=
  joinSep "\n\n".toList (visionPdfTextPages 0 pages)

theorem enumFrom_map_fst {α : Type} (n : Nat) (l : List α) :
    (enumFrom n l).map Prod.fst = List.range' n l.length := by
  induction l generalizing n with
  | nil => simp [enumFrom]
  | cons a as ih => simp [enumFrom, List.range', ih]

theorem enumFrom_length {α : Type} (n : Nat) (l : List α) :
    (enumFrom n l).length = l.length := by
  induction l generalizing n with
  | nil => rfl
  | cons a as ih => simp [enumFrom, ih]

theorem visionPdfTextPages_ok (pages : List (List Char)) (n : Nat) :
    visionPdfTextPages n (pages.map Except.ok) =
      (enumFrom (n + 1) pages).map (fun p => visionPageTag p.1 p.2) := by
  induction pages generalizing n with
  | nil => rfl
  | cons t ts ih => simp [visionPdfTextPages, enumFrom, ih (n + 1)]

theorem ocrPdfEntries_eq (pages : List (Except (List Char) (List Char))) (n : Nat) :
    ocrPdfEntries n pages =
      ((enumFrom (n + 1) (pages.map extract_text_from_image)).filter
        (fun p => !decide (pstrip p.2 = []))).map (fun p => ocrPageTag p.1 p.2) := by
  induction pages generalizing n with
  | nil => rfl
  | cons pg rest ih =>
    by_cases h : pstrip (extract_text_from_image pg) = [] <;>
      simp [ocrPdfEntries, enumFrom, h, ih (n + 1)]

theorem ocrPdfEntries_append (pre suf : List (Except (List Char) (List Char)))
    (n : Nat) :
    ocrPdfEntries n (pre ++ suf) =
      ocrPdfEntries n pre ++ ocrPdfEntries (n + pre.length) suf := by
  induction pre generalizing n with
  | nil => simp [ocrPdfEntries]
  | cons pg rest ih =>
    have harith : n + 1 + rest.length = n + (rest.length + 1) := by omega
    by_cases h : pstrip (extract_text_from_image pg) = [] <;>
      simp [ocrPdfEntries, h, ih (n + 1), harith]

theorem pstrip_all_ws (l : List Char) (h : pstrip l = []) : ∀ c ∈ l, isWS c := by
  unfold pstrip at h
  have h1 : (l.dropWhile isWS).reverse.dropWhile isWS = [] :=
    List.reverse_eq_nil_iff.mp h
  have h2 : ∀ c ∈ (l.dropWhile isWS).reverse, isWS c :=
    List.dropWhile_eq_nil_iff.mp h1
  intro c hc
  rcases List.mem_append.mp ((l.takeWhile_append_dropWhile isWS) ▸ hc) with hm | hm
  · exact List.mem_takeWhile_imp hm
  · exact h2 c (List.mem_reverse.mpr hm)

theorem pstrip_error_text (e : List Char) :
    pstrip ("Error extracting text from image: ".toList ++ e) ≠ [] := by
  intro h
  have hE := pstrip_all_ws _ h 'E' (List.mem_append_left e (by decide))
  simp [isWS] at hE

theorem ocrPdfEntries_error_inline (pre suf : List (Except (List Char) (List Char)))
    (e : List Char) :
    ocrPdfEntries 0 (pre ++ Except.error e :: suf) =
      ocrPdfEntries 0 pre ++
        ocrPageTag (pre.length + 1)
            ("Error extracting text from image: ".toList ++ e) ::
          ocrPdfEntries (pre.length + 1) suf := by
  rw [ocrPdfEntries_append]
  congr 1
  show ocrPdfEntries (0 + pre.length) (Except.error e :: suf) = _
  rw [Nat.zero_add]
  simp only [ocrPdfEntries, extract_text_from_image]
  rw [if_neg (pstrip_error_text e)]

theorem visionPdf_error_aborts (pre : List (List Char)) (e : List Char)
    (suf : List (Except (List Char) (List Char))) (n : Nat) :
    visionPdfTextPages n (pre.map Except.ok ++ Except.error e :: suf) =
      (enumFrom (n + 1) pre).map (fun p => visionPageTag p.1 p.2) ++
        ["Text extraction error: ".toList ++ e] := by
  induction pre generalizing n with
  | nil => rfl
  | cons t ts ih => simp [visionPdfTextPages, enumFrom, ih (n + 1)]

/-- C1 counterexample: on the OCR-path extractor a one-page PDF whose page
OCR yields only whitespace produces zero page entries — page index 1 never
appears and the output's page-entry count differs from the input's page
count, because src/processors.py line 76 skips pages with blank text. -/
theorem ocr_pdf_blank_page_dropped :
    ocrPdfEntries 0 ([Except.ok [' ']] :
        List (Except (List Char) (List Char))) = [] ∧
    (ocrPdfEntries 0 ([Except.ok [' ']] :
        List (Except (List Char) (List Char)))).length ≠
      ([Except.ok [' ']] : List (Except (List Char) (List Char))).length := by
  decide

/-- C1 (amended): the vision-path PDF extractor emits one entry per page,
tagged 1..N in ascending page order, each index exactly once; the OCR-path
extractor emits entries for exactly those pages whose extracted text is
non-blank, tagged with their original 1-based index, in ascending order. -/
theorem pdf_page_entries_characterization :
    (∀ pages : List (List Char),
      visionPdfTextPages 0 (pages.map Except.ok) =
        (enumFrom 1 pages).map (fun p => visionPageTag p.1 p.2)) ∧
    (∀ pages : List (List Char),
      (visionPdfTextPages 0 (pages.map Except.ok)).length = pages.length) ∧
    (∀ pages : List (List Char),
      (enumFrom 1 pages).map Prod.fst = List.range' 1 pages.length) ∧
    (∀ pages : List (Except (List Char) (List Char)),
      ocrPdfEntries 0 pages =
        ((enumFrom 1 (pages.map extract_text_from_image)).filter
          (fun p => !decide (pstrip p.2 = []))).map (fun p => ocrPageTag p.1 p.2)) := by
  refine ⟨fun pages => visionPdfTextPages_ok pages 0, ?_, ?_, fun pages => ocrPdfEntries_eq pages 0⟩
  · intro pages
    rw [visionPdfTextPages_ok pages 0, List.length_map]
    exact enumFrom_length 1 pages
  · exact enumFrom_map_fst 1

/-- C4 counterexample: on the vision-path PDF extractor, with three pages
of which only the second fails, extraction stops after the failure: the
output has two entries — page 1 and the bare error annotation — and page 3
is never extracted, so extraction of the remaining pages does not complete. -/
theorem vision_pdf_page_failure_drops_rest :
    visionPdfTextPages 0
        [Except.ok "A".toList, Except.error "boom".toList, Except.ok "B".toList] =
      [visionPageTag 1 "A".toList, "Text extraction error: boom".toList] ∧
    (visionPdfTextPages 0
        [Except.ok "A".toList, Except.error "boom".toList,
          Except.ok "B".toList]).length ≠ 3 := by
  decide

/-- C4 (amended): on the OCR-path extractor a failing page is recorded as
an inline tagged error entry at that page's position and every remaining
page is still processed; on the vision-path extractor the pages before the
failure are kept in order, one bare error annotation is appended, and the
remaining pages are dropped. -/
theorem pdf_page_failure_behaviour :
    (∀ (pre suf : List (Except (List Char) (List Char))) (e : List Char),
      ocrPdfEntries 0 (pre ++ Except.error e :: suf) =
        ocrPdfEntries 0 pre ++
          ocrPageTag (pre.length + 1)
              ("Error extracting text from image: ".toList ++ e) ::
            ocrPdfEntries (pre.length + 1) suf) ∧
    (∀ (pre : List (List Char)) (e : List Char)
        (suf : List (Except (List Char) (List Char))),
      visionPdfTextPages 0 (pre.map Except.ok ++ Except.error e :: suf) =
        (enumFrom 1 pre).map (fun p => visionPageTag p.1 p.2) ++
          ["Text extraction error: ".toList ++ e]) :=
  ⟨fun pre suf e => ocrPdfEntries_error_inline pre suf e,
   fun pre e suf => visionPdf_error_aborts pre e suf 0⟩

/-- C9: the OCR-path PDF extractor deletes its temporary file only on the
success path; when rasterization raises, the except branch returns the
inline error string with the temporary file still on disk. -/
theorem pdf_temp_file_not_deleted_on_error :
    (extract_text_from_pdf (Except.error "boom".toList)).2 = false ∧
    (extract_text_from_pdf (Except.error "boom".toList)).1 =
      "Error extracting text from PDF: boom".toList ∧
    (extract_text_from_pdf (Except.ok [Except.ok "hi".toList])).2 = true := by
  decide

/-! ### DOCX extraction models -/

/-- An element of a DOCX document body, in authored order: a paragraph
(a CT_P) or a table (a CT_Tbl, rows of cell texts). A paragraph also
carries the embedded images discovered while scanning its runs
(src/processorsvision.py lines 133-150), each modelled by the outcome of
processing it: ok with the remote recognizer's raw response for an image
that decodes, error with the exception's message for a corrupt one. -/
inductive DocxElem
  | par (text : List Char) (imgs : List (Except (List Char) (List Char)))
  | tbl (rows : List (List (List Char)))

/-- EmbeddedImageOutcome: one embedded image's entry in the images list
(src/processorsvision.py lines 142-150): extracted content, or the message
of the exception its processing raised. -/
inductive EmbeddedImageOutcome
  | extracted (content : List Char)
  | failed (err : List Char)
deriving DecidableEq

/-- python-docx doc.paragraphs: the body's paragraph texts in authored
order, tables skipped. -/
def docParagraphs : List DocxElem → List (List Char)
  | [] => []
  | DocxElem.par t _ :: rest => t :: docParagraphs rest
  | DocxElem.tbl _ :: rest => docParagraphs rest

/-- python-docx doc.tables: the body's tables in authored order,
paragraphs skipped. -/
def docTables : List DocxElem → List (List (List (List Char)))
  | [] => []
  | DocxElem.par _ _ :: rest => docTables rest
  | DocxElem.tbl rows :: rest => rows :: docTables rest

/-- A table row flattened to one delimited line: cells joined with " | "
(src/processors.py line 102). -/
def rowLine (cells : List (List Char)) : List Char :=
  joinSep " | ".toList cells

/-- One table's non-blank flattened rows (src/processors.py lines
100-104). -/
def tableRowLines (rows : List (List (List Char))) : List (List Char) :=
  (rows.map rowLine).filter (fun r => !decide (pstrip r = []))

/-- DocumentProcessor.extract_text_from_docx (src/processors.py lines
87-109): one loop over doc.paragraphs keeping non-blank texts, then a
second loop over doc.tables keeping non-blank flattened rows, all joined
with newlines — every paragraph is emitted before every table. -/
def extract_text_from_docx (body : List DocxElem) : List Char :=
  joinSep ['\n']
    ((docParagraphs body).filter (fun t => !decide (pstrip t = [])) ++
      (docTables body).flatMap tableRowLines)

/-- The non-blank paragraph texts of the body, in authored order. -/
def bodyParLines : List DocxElem → List (List Char)
  | [] => []
  | DocxElem.par t _ :: rest =>
    if pstrip t = [] then bodyParLines rest else t :: bodyParLines rest
  | DocxElem.tbl _ :: rest => bodyParLines rest

/-- The non-blank flattened table rows of the body, in authored order. -/
def bodyTableLines : List DocxElem → List (List Char)
  | [] => []
  | DocxElem.par _ _ :: rest => bodyTableLines rest
  | DocxElem.tbl rows :: rest => tableRowLines rows ++ bodyTableLines rest

/-- The embedded images of the body, in document order. -/
def bodyImages : List DocxElem → List (Except (List Char) (List Char))
  | [] => []
  | DocxElem.par _ imgs :: rest => imgs ++ bodyImages rest
  | DocxElem.tbl _ :: rest => bodyImages rest

/-- The outcome recorded for one embedded image (src/processorsvision.py
lines 137-150): a decoded image's vision response goes through
extract_with_vision and is recorded as extracted content; a corrupt
image's exception message is recorded as an error entry, and the loop
continues with the next image. -/
def imageOutcome : Except (List Char) (List Char) → EmbeddedImageOutcome
  | Except.ok raw => EmbeddedImageOutcome.extracted (extract_with_vision raw)
  | Except.error e => EmbeddedImageOutcome.failed e

/-- The content dict extract_from_docx returns. -/
structure DocxContent where
  text : List Char
  tables : List (List (List (List Char)))
  images : List EmbeddedImageOutcome
deriving DecidableEq

/-- The body walk of DocumentExtractor.extract_from_docx
(src/processorsvision.py lines 124-158): the loop's three accumulators —
non-blank paragraph texts, tables, embedded-image outcomes — each filled
in authored order. -/
def docxWalk :
    List DocxElem →
      List (List Char) × List (List (List (List Char))) × List EmbeddedImageOutcome
  | [] => ([], [], [])
  | DocxElem.par t imgs :: rest =>
    let w := docxWalk rest
    ((if pstrip t = [] then w.1 else t :: w.1), w.2.1,
      imgs.map imageOutcome ++ w.2.2)
  | DocxElem.tbl rows :: rest =>
    let w := docxWalk rest
    (w.1, rows :: w.2.1, w.2.2)

/-- DocumentExtractor.extract_from_docx (src/processorsvision.py lines
115-162): the walked text items joined with blank lines fill the text
field; tables and image outcomes fill their own lists. -/
def extract_from_docx (body : List DocxElem) : DocxContent :=
  { text := joinSep "\n\n".toList (docxWalk body).1,
    tables := (docxWalk body).2.1,
    images := (docxWalk body).2.2 }

theorem docxWalk_eq (body : List DocxElem) :
    docxWalk body =
      (bodyParLines body, docTables body, (bodyImages body).map imageOutcome) := by
  induction body with
  | nil => rfl
  | cons e rest ih =>
    cases e with
    | par t imgs =>
      simp [docxWalk, bodyParLines, docTables, bodyImages, ih, List.map_append]
    | tbl rows =>
      simp [docxWalk, bodyParLines, docTables, bodyImages, ih]

theorem docParagraphs_filter (body : List DocxElem) :
    (docParagraphs body).filter (fun t => !decide (pstrip t = [])) =
      bodyParLines body := by
  induction body with
  | nil => rfl
  | cons e rest ih =>
    cases e with
    | par t imgs =>
      by_cases h : pstrip t = [] <;>
        simp [docParagraphs, bodyParLines, h, ih]
    | tbl rows => simp [docParagraphs, bodyParLines, ih]

theorem docTables_flatMap (body : List DocxElem) :
    (docTables body).flatMap tableRowLines = bodyTableLines body := by
  induction body with
  | nil => rfl
  | cons e rest ih =>
    cases e with
    | par t imgs => simp [docTables, bodyTableLines, ih]
    | tbl rows => simp [docTables, bodyTableLines, ih]

/-- C2 counterexample: a DOCX whose body is a table followed by a
paragraph still yields the paragraph's text before the table's row — the
OCR-path extractor emits all paragraphs first, then all tables, so the
forbidden "all paragraphs then all tables" order does occur. -/
theorem docx_table_before_paragraph :
    extract_text_from_docx [DocxElem.tbl [[['T']]], DocxElem.par ['A'] []] =
      "A\nT".toList ∧
    extract_text_from_docx [DocxElem.tbl [[['T']]], DocxElem.par ['A'] []] ≠
      "T\nA".toList := by
  decide

/-- C2 (amended): neither DOCX extractor interleaves paragraphs with
tables. The OCR-path extractor's output is all non-blank paragraphs in
authored order followed by all non-blank flattened table rows in authored
order; the vision-path extractor walks the body in authored order but
routes paragraph text and tables to separate fields of its result, so
relative order is preserved only within each category. -/
theorem docx_paragraphs_and_tables_segregated :
    (∀ body : List DocxElem,
      extract_text_from_docx body =
        joinSep ['\n'] (bodyParLines body ++ bodyTableLines body)) ∧
    (∀ body : List DocxElem,
      (extract_from_docx body).text =
        joinSep "\n\n".toList (bodyParLines body)) ∧
    (∀ body : List DocxElem, (extract_from_docx body).tables = docTables body) := by
  refine ⟨fun body => ?_, fun body => ?_, fun body => ?_⟩
  · rw [extract_text_from_docx, docParagraphs_filter, docTables_flatMap]
  · rw [extract_from_docx, docxWalk_eq]
  · rw [extract_from_docx, docxWalk_eq]

/-- C5: in the vision DOCX extractor a corrupt embedded image is isolated:
the text field is exactly the non-blank paragraph texts, independent of
every image outcome; each discovered image yields exactly one outcome, in
document order, a corrupt one tagged failed; and on the spec's example
document — "Intro", a paragraph holding only a corrupt image,
"Conclusion" — the text is "Intro\n\nConclusion" with exactly one failed
image outcome. -/
theorem docx_corrupt_image_isolated :
    (∀ body : List DocxElem,
      (extract_from_docx body).text =
        joinSep "\n\n".toList (bodyParLines body)) ∧
    (∀ body : List DocxElem,
      (extract_from_docx body).images = (bodyImages body).map imageOutcome) ∧
    extract_from_docx
        [DocxElem.par "Intro".toList [],
         DocxElem.par [] [Except.error "bad".toList],
         DocxElem.par "Conclusion".toList []] =
      { text := "Intro\n\nConclusion".toList, tables := [],
        images := [EmbeddedImageOutcome.failed "bad".toList] } := by
  refine ⟨fun body => ?_, fun body => ?_, by decide⟩
  · rw [extract_from_docx, docxWalk_eq]
  · rw [extract_from_docx, docxWalk_eq]

/-! ### PPTX extraction models -/

/-- A slide shape: it may expose a text attribute, may hold a table, and
may be a picture (shape_type 13) whose processing is modelled by its
outcome like a DOCX embedded image. Both extractors check the three
capabilities independently per shape. -/
structure PShape where
  text : Option (List Char)
  table : Option (List (List (List Char)))
  pic : Option (Except (List Char) (List Char))

/-- The slide banner f"--- Slide \x7bi+1\x7d ---" of
DocumentProcessor.extract_text_from_pptx (src/processors.py line 119). -/
def slideHeader (n : Nat) : List Char :=
  "--- Slide ".toList ++ (Nat.repr n).toList ++ " ---".toList

/-- The shape loop of DocumentProcessor.extract_text_from_pptx
(src/processors.py lines 122-131): per shape, its non-blank text, then its
table's non-blank flattened rows; pictures contribute nothing on this
path. -/
def slideBody : List PShape → List (List Char)
  | [] => []
  | s :: rest =>
    ((match s.text with
      | some t => if pstrip t = [] then [] else [t]
      | none => []) ++
     (match s.table with
      | some rows => tableRowLines rows
      | none => [])) ++ slideBody rest

/-- The slide loop of DocumentProcessor.extract_text_from_pptx
(src/processors.py lines 118-134): a slide contributes an entry — its
header line joined with its body lines — only when the body is non-empty;
line 133 keeps a slide only "If there is content beyond the header". -/
def pptxSlideEntries (slides : List (List PShape)) : List (List Char) :=
  (enumFrom 1 slides).filterMap fun p =>
    if slideBody p.2 = [] then none
    else some (joinSep ['\n'] (slideHeader p.1 :: slideBody p.2))

/-- DocumentProcessor.extract_text_from_pptx (src/processors.py lines
111-139): the kept slide entries joined with blank lines. -/
def extract_text_from_pptx (slides : List (List PShape)) : List Char :=
  joinSep "\n\n".toList (pptxSlideEntries slides)

/-- One slide's record in DocumentExtractor.extract_from_pptx
(src/processorsvision.py lines 193-234). -/
structure SlideContent where
  slide_number : Nat
  text : List Char
  tables : List (List (List (List Char)))
  images : List EmbeddedImageOutcome
deriving DecidableEq

/-- The per-slide shape text items (src/processorsvision.py lines
202-204): non-blank shape texts in shape order. -/
def slideTexts : List PShape → List (List Char)
  | [] => []
  | s :: rest =>
    (match s.text with
     | some t => if pstrip t = [] then [] else [t]
     | none => []) ++ slideTexts rest

/-- The per-slide tables (src/processorsvision.py lines 206-212), appended
unconditionally in shape order. -/
def slideTables : List PShape → List (List (List (List Char)))
  | [] => []
  | s :: rest =>
    (match s.table with
     | some rows => [rows]
     | none => []) ++ slideTables rest

/-- The per-slide picture outcomes (src/processorsvision.py lines
214-230): one outcome per picture shape in shape order, a failure recorded
inline while the loop continues. -/
def slidePics : List PShape → List EmbeddedImageOutcome
  | [] => []
  | s :: rest =>
    (match s.pic with
     | some img => [imageOutcome img]
     | none => []) ++ slidePics rest

/-- DocumentExtractor.extract_from_pptx (src/processorsvision.py lines
185-236): every slide yields a record numbered slide_num + 1, in slide
order, whether or not the slide has any content. -/
def extract_from_pptx (slides : List (List PShape)) : List SlideContent :=
  (enumFrom 0 slides).map fun p =>
    { slide_number := p.1 + 1,
      text := joinSep ['\n'] (slideTexts p.2),
      tables := slideTables p.2,
      images := slidePics p.2 }

theorem enumFrom_map_fst_succ {α : Type} (n : Nat) (l : List α) :
    (enumFrom n l).map (fun p => p.1 + 1) = List.range' (n + 1) l.length := by
  induction l generalizing n with
  | nil => simp [enumFrom]
  | cons a as ih => simp [enumFrom, List.range', ih]

theorem extract_from_pptx_numbers (slides : List (List PShape)) :
    (extract_from_pptx slides).map SlideContent.slide_number =
      List.range' 1 slides.length := by
  unfold extract_from_pptx
  rw [List.map_map]
  exact enumFrom_map_fst_succ 0 slides

theorem filterMap_if {α β : Type} (c : α → Prop) [DecidablePred c]
    (f : α → β) (l : List α) :
    (l.filterMap fun a => if c a then none else some (f a)) =
      (l.filter fun a => !decide (c a)).map f := by
  induction l with
  | nil => rfl
  | cons a as ih =>
    by_cases h : c a <;> simp [List.filterMap_cons, h, ih]

/-- C6 counterexample: on the OCR-path PPTX extractor a slide with no
shapes at all is silently dropped — a 3-slide deck whose middle slide is
empty yields 2 entries, not 3 (the kept entries retain their original
numbering, so entry "Slide 2" never exists). -/
theorem pptx_empty_slide_dropped :
    pptxSlideEntries
        [[⟨some "A".toList, none, none⟩], [],
         [⟨some "C".toList, none, none⟩]] =
      ["--- Slide 1 ---\nA".toList, "--- Slide 3 ---\nC".toList] ∧
    (pptxSlideEntries [[⟨some "A".toList, none, none⟩], [],
        [⟨some "C".toList, none, none⟩]]).length ≠ 3 := by
  decide

/-- C6 (amended): the vision-path PPTX extractor yields exactly one record
per slide, numbered 1..N in slide order, empty slides included; the
OCR-path extractor keeps exactly the slides whose collected body (shape
text or table rows) is non-empty, with their original numbering — a slide
whose only content is a title placeholder is kept on both paths, since the
title text counts as shape text, but a slide with no textual content at
all is dropped on the OCR path. -/
theorem pptx_slide_entries_characterization :
    (∀ slides : List (List PShape),
      (extract_from_pptx slides).map SlideContent.slide_number =
        List.range' 1 slides.length) ∧
    (∀ slides : List (List PShape),
      (extract_from_pptx slides).length = slides.length) ∧
    (∀ slides : List (List PShape),
      pptxSlideEntries slides =
        ((enumFrom 1 slides).filter (fun p => !decide (slideBody p.2 = []))).map
          (fun p => joinSep ['\n'] (slideHeader p.1 :: slideBody p.2))) ∧
    (pptxSlideEntries
        [[⟨some "A".toList, none, none⟩],
         [⟨some "Title".toList, none, none⟩],
         [⟨some "C".toList, none, none⟩]] =
      ["--- Slide 1 ---\nA".toList, "--- Slide 2 ---\nTitle".toList,
       "--- Slide 3 ---\nC".toList] ∧
      (extract_from_pptx
          [[⟨some "A".toList, none, none⟩],
           [⟨some "Title".toList, none, none⟩],
           [⟨some "C".toList, none, none⟩]]).map SlideContent.slide_number =
        [1, 2, 3]) := by
  refine ⟨extract_from_pptx_numbers, fun slides => ?_, fun slides => ?_,
    by decide, by decide⟩
  · unfold extract_from_pptx
    rw [List.length_map]
    exact enumFrom_length 0 slides
  · exact filterMap_if (fun p => slideBody p.2 = []) _ (enumFrom 1 slides)

/-! ### Format dispatch models -/

/-- Which extractor DocumentProcessor.process_file routes to, or the
explicit unsupported marker of its else branch. -/
inductive ProcRoute
  | image
  | pdf
  | docx
  | pptx
  | unsupported
deriving DecidableEq

/-- The if/elif chain of DocumentProcessor.process_file (src/processors.py
lines 141-158), transcribed test for test: no ppt and no webp case exists
on this path. -/
def process_file_route (file_type : String) : ProcRoute :=
  if file_type = "jpg" ∨ file_type = "jpeg" ∨ file_type = "png" ∨
      file_type = "bmp" ∨ file_type = "tiff" ∨ file_type = "gif" then
    ProcRoute.image
  else if file_type = "pdf" then ProcRoute.pdf
  else if file_type = "docx" then ProcRoute.docx
  else if file_type = "pptx" then ProcRoute.pptx
  else ProcRoute.unsupported

/-- The string DocumentProcessor.process_file returns on its else branch
(src/processors.py line 158). -/
def procUnsupportedMarker : List Char :=
  "Unsupported file format".toList

/-- Which extractor DocumentExtractor.extract_from_file routes to, or the
explicit unsupported error of its else branch. -/
inductive VisionRoute
  | docx
  | pdf
  | pptx
  | image
  | unsupported
deriving DecidableEq

/-- The if/elif chain of DocumentExtractor.extract_from_file
(src/processorsvision.py lines 248-287), transcribed test for test: no
.gif case exists on this path. -/
def extract_from_file_route (extension : String) : VisionRoute :=
  if extension = ".docx" then VisionRoute.docx
  else if extension = ".pdf" then VisionRoute.pdf
  else if extension = ".ppt" ∨ extension = ".pptx" then VisionRoute.pptx
  else if extension = ".png" ∨ extension = ".jpg" ∨ extension = ".jpeg" ∨
      extension = ".bmp" ∨ extension = ".tiff" ∨ extension = ".webp" then
    VisionRoute.image
  else VisionRoute.unsupported

/-- The error value DocumentExtractor.extract_from_file returns on its
else branch (src/processorsvision.py line 286). -/
def visionUnsupportedMarker (extension : String) : List Char :=
  "Unsupported file type: ".toList ++ extension.toList

/-- The format tags DocumentProcessor.process_file routes. -/
def procSupported : List String :=
  ["jpg", "jpeg", "png", "bmp", "tiff", "gif", "pdf", "docx", "pptx"]

/-- The extensions DocumentExtractor.extract_from_file routes. -/
def visionSupported : List String :=
  [".docx", ".pdf", ".ppt", ".pptx", ".png", ".jpg", ".jpeg", ".bmp",
   ".tiff", ".webp"]

theorem proc_unsupported_iff (ft : String) :
    process_file_route ft = ProcRoute.unsupported ↔ ft ∉ procSupported := by
  unfold process_file_route procSupported
  split_ifs with h1 h2 h3 h4 <;> simp_all <;> tauto

theorem vision_unsupported_iff (ext : String) :
    extract_from_file_route ext = VisionRoute.unsupported ↔
      ext ∉ visionSupported := by
  unfold extract_from_file_route visionSupported
  split_ifs with h1 h2 h3 h4 <;> simp_all <;> tauto

/-- C3 counterexample: "ppt" and "webp" are in the claim's supported set
yet fall to process_file's unsupported branch, and ".gif" is in the
claim's supported set yet falls to extract_from_file's unsupported
branch — neither dispatcher accepts exactly the declared set. -/
theorem dispatch_rejects_claimed_tags :
    process_file_route "ppt" = ProcRoute.unsupported ∧
    process_file_route "webp" = ProcRoute.unsupported ∧
    extract_from_file_route ".gif" = VisionRoute.unsupported := by
  decide

/-- C3 (amended): process_file routes exactly the nine tags jpg, jpeg,
png, bmp, tiff, gif, pdf, docx, pptx and extract_from_file routes exactly
the ten extensions .docx, .pdf, .ppt, .pptx, .png, .jpg, .jpeg, .bmp,
.tiff, .webp; every other tag — including .xyz — yields the explicit
non-empty unsupported-format marker, never an exception and never an empty
success. -/
theorem dispatch_characterization :
    (process_file_route "jpg" = ProcRoute.image ∧
      process_file_route "jpeg" = ProcRoute.image ∧
      process_file_route "png" = ProcRoute.image ∧
      process_file_route "bmp" = ProcRoute.image ∧
      process_file_route "tiff" = ProcRoute.image ∧
      process_file_route "gif" = ProcRoute.image ∧
      process_file_route "pdf" = ProcRoute.pdf ∧
      process_file_route "docx" = ProcRoute.docx ∧
      process_file_route "pptx" = ProcRoute.pptx) ∧
    (extract_from_file_route ".docx" = VisionRoute.docx ∧
      extract_from_file_route ".pdf" = VisionRoute.pdf ∧
      extract_from_file_route ".ppt" = VisionRoute.pptx ∧
      extract_from_file_route ".pptx" = VisionRoute.pptx ∧
      extract_from_file_route ".png" = VisionRoute.image ∧
      extract_from_file_route ".jpg" = VisionRoute.image ∧
      extract_from_file_route ".jpeg" = VisionRoute.image ∧
      extract_from_file_route ".bmp" = VisionRoute.image ∧
      extract_from_file_route ".tiff" = VisionRoute.image ∧
      extract_from_file_route ".webp" = VisionRoute.image) ∧
    (∀ ft : String,
      process_file_route ft = ProcRoute.unsupported ↔ ft ∉ procSupported) ∧
    (∀ ext : String,
      extract_from_file_route ext = VisionRoute.unsupported ↔
        ext ∉ visionSupported) ∧
    extract_from_file_route ".xyz" = VisionRoute.unsupported ∧
    procUnsupportedMarker ≠ [] ∧
    visionUnsupportedMarker ".xyz" ≠ [] :=
  ⟨by decide, by decide, proc_unsupported_iff, vision_unsupported_iff,
    by decide, by decide, by decide⟩

/-! ### Image preprocessing pipeline -/

/-- An RGB pixel; images are modelled as flat pixel lists. -/
structure RGB where
  r : Nat
  g : Nat
  b : Nat
deriving DecidableEq

/-- cv2.cvtColor(img_array, COLOR_RGB2GRAY) per pixel: OpenCV's
fixed-point BT.601 luma, (4899 R + 9617 G + 1868 B + 8192) >> 14. -/
def rgbToGray (p : RGB) : Nat :=
  (4899 * p.r + 9617 * p.g + 1868 * p.b + 8192) / 16384

/-- The grayscale step of DocumentProcessor.preprocess_image
(src/processors.py line 27). -/
def grayscale (img : List RGB) : List Nat :=
  img.map rgbToGray

/-- Pixel count of the class at or below a candidate split t. -/
def w0 (g : List Nat) (t : Nat) : Nat :=
  (g.filter (fun v => v ≤ t)).length

/-- Intensity sum of the class at or below a candidate split t. -/
def s0 (g : List Nat) (t : Nat) : Nat :=
  (g.filter (fun v => v ≤ t)).sum

/-- Between-class variance at split t, numerator: σ(t) is proportional to
(s0 w1 − s1 w0)² / (w0 w1), compared by cross-multiplication; a split with
an empty class scores zero, as OpenCV skips such splits. -/
def otsuNum (g : List Nat) (t : Nat) : Nat :=
  let n0 := w0 g t
  let n1 := g.length - n0
  if n0 = 0 ∨ n1 = 0 then 0
  else (Int.natAbs ((s0 g t : Int) * (n1 : Int) -
    ((g.sum - s0 g t : Nat) : Int) * (n0 : Int))) ^ 2

/-- Between-class variance at split t, denominator. -/
def otsuDen (g : List Nat) (t : Nat) : Nat :=
  let n0 := w0 g t
  let n1 := g.length - n0
  if n0 = 0 ∨ n1 = 0 then 1 else n0 * n1

/-- The automatic threshold of cv2.threshold with THRESH_OTSU: the split
in 0..255 maximizing the between-class variance of the intensity
histogram, keeping the first maximizer on ties (OpenCV updates its best
split only on strict improvement). -/
def otsuThreshold (g : List Nat) : Nat :=
  (List.range 256).foldl
    (fun best t =>
      if otsuNum g t * otsuDen g best > otsuNum g best * otsuDen g t then t
      else best) 0

/-- cv2.threshold(gray, 0, 255, THRESH_BINARY + THRESH_OTSU)
(src/processors.py line 30): pixels above the selected threshold become
255, the rest 0. -/
def binarize (g : List Nat) (t : Nat) : List Nat :=
  g.map fun v => if v > t then 255 else 0

/-- Modelled from the spec: cv2.fastNlMeansDenoising(binary, None, 10, 7,
21) (src/processors.py line 33) is an OpenCV routine whose code is not in
this repository; the spec describes the step as a deterministic
non-local-means-style filter that removes speckle by averaging similar
pixels. Modelled as an integer filter: within a 21-pixel search window
each pixel whose value differs from the centre by at most the filter
strength 10 contributes with weight one, and the centre takes their
floor-averaged value. -/
def fastNlMeansDenoising (g : List Nat) : List Nat :=
  (List.range g.length).map fun i =>
    let v := g.getD i 0
    let window := (g.drop (i - 10)).take 21
    let similar := window.filter fun q => max v q - min v q ≤ 10
    if similar.length = 0 then v else similar.sum / similar.length

/-- DocumentProcessor.preprocess_image (src/processors.py lines 20-36):
grayscale conversion, then histogram-adaptive Otsu binarization, then
non-local-means denoising, in that order. -/
def preprocess_image (img : List RGB) : List Nat :=
  fastNlMeansDenoising (binarize (grayscale img) (otsuThreshold (grayscale img)))

/-- C8: the preprocessing pipeline is deterministic and reproducible: two
runs on the same source image yield identical output images. The source
pipeline reads no ambient state and draws no randomness, so its embedding
is a pure function of the pixel data and any two runs coincide. -/
theorem preprocess_pipeline_deterministic (img : List RGB)
    (r1 r2 : List Nat) (h1 : r1 = preprocess_image img)
    (h2 : r2 = preprocess_image img) : r1 = r2 :=
  h1.trans h2.symm

/-- Witness for C8: two runs of the pipeline on a concrete two-pixel
image agree. -/
theorem preprocess_pipeline_deterministic_witness :
    preprocess_image [⟨10, 20, 30⟩, ⟨200, 200, 200⟩] =
      preprocess_image [⟨10, 20, 30⟩, ⟨200, 200, 200⟩] :=
  preprocess_pipeline_deterministic [⟨10, 20, 30⟩, ⟨200, 200, 200⟩]
    (preprocess_image [⟨10, 20, 30⟩, ⟨200, 200, 200⟩])
    (preprocess_image [⟨10, 20, 30⟩, ⟨200, 200, 200⟩]) rfl rfl

end MyStudyBuddy


